import Mathlib

/-!
Shallow embedding of the `trace!` macro of `src/eztrace.rs`.

The macro dispatches on the static shape of the call (arm order matters):
  arm 1: `()`                          prints `file:line`
  arm 2: `(#)`                         prints `file:line`
  arm 3: `(#$label:literal)`           prints the literal with the Debug code `:?`
  arm 4: `($label:literal)`            prints the literal with the Display code
  arm 5: `(#$($IT:expr),* $(,)?)`      general shape, alternate Debug code `:#?`
  arm 6: `($($IT:expr),* $(,)?)`       general shape, Debug code `:?`
plus the internal arms `@line`, `@#fmt`, `@fmt`, `@#fmtcode`, `@fmtcode`,
`@stringify`.

A call-site argument is modelled as its captured source text (what Rust's
`stringify!` yields for the tokens), its token kind (Rust's `literal` macro
fragment matches any literal token: string literals and non-string literals
alike, but never a compound expression), and its evaluation, a state
transformer returning an opaque value.  A value is opaque except for the three
renderings the macro can request from the formatting machinery: the Display
code, the Debug code `:?`, and the alternate Debug code `:#?`.

The expansion of a general-shape call is
  `println!(concat!(<stringified texts>, ":", <one fmtcode per arg>), &a1, .., &an)`
which we model in two stages, like Rust does: the format string is assembled
at expansion time from the texts alone (`fmt`, a list of `Seg`ments: literal
text and parameter holes), and at run time the arguments are evaluated left to
right, once each, after which `formatRun` substitutes the rendered values into
the holes in order.  A shape no arm accepts (for example a bare trailing comma
with no arguments, whose inner `@stringify` expansion has no matching arm) is
a compile-time error, modelled as `none`.
-/

namespace Eztrace

/-- The renderings the formatting machinery can produce for one runtime value:
the Display code, the Debug code `:?`, and the alternate Debug code `:#?`. -/
structure Value where
  display : String
  debug : String
  debugAlt : String
deriving DecidableEq

/-- Token kind of a call-site argument, as seen by the macro matcher: a string
literal token, a non-string literal token (integer, char, ... — Rust's
`literal` fragment matches these too), or a compound expression. -/
inductive ArgKind where
  | strLit
  | otherLit
  | exprArg
deriving DecidableEq

/-- One call-site argument: its source text as captured by `stringify!`, its
token kind, and its evaluation, a state transformer producing a `Value`. -/
structure Expr (σ : Type) where
  text : String
  kind : ArgKind
  run : σ → σ × Value

/-- Whether the argument matches the `$label:literal` macro fragment: any
literal token does, a compound expression does not. -/
def Expr.isLit {σ : Type} (e : Expr σ) : Bool :=
  match e.kind with
  | ArgKind.exprArg => false
  | _ => true

/-- A segment of an assembled format string: literal text, or a parameter hole
(`:?`, or `:#?` when `alt` is set). -/
inductive Seg where
  | str (s : String)
  | hole (alt : Bool)
deriving DecidableEq

/-- The `@line` arm: `concat!(file!(), ":", line!())`. -/
def atLine (file : String) (line : Nat) : String :=
  file ++ ":" ++ toString line

/-- The repeated part of the `@stringify` arm: `$(", ", stringify!($IT),)*`. -/
def stringifyTail : List String → String
  | [] => ""
  | u :: us => ", " ++ (u ++ stringifyTail us)

/-- The `@stringify` arm: `concat!(stringify!($HEAD), $(", ", stringify!($IT),)*)`.
Its pattern requires at least one argument, so an empty list is a
macro-expansion failure (`none`). -/
def stringifyArm : List String → Option String
  | [] => none
  | t :: ts => some (t ++ stringifyTail ts)

/-- The `@fmtcode` / `@#fmtcode` arms: the format-string fragment one argument
contributes, a space followed by a Debug hole (`alt` selects `:#?` over `:?`). -/
def fmtcode (alt : Bool) : List Seg :=
  [Seg.str " ", Seg.hole alt]

/-- The `@fmt` / `@#fmt` arms: `concat!(trace!(@stringify ..), ":", $(fmtcode)*)`,
the format string of a general-shape call, assembled at expansion time from
the argument texts alone. -/
def fmt (alt : Bool) (texts : List String) : Option (List Seg) :=
  (stringifyArm texts).map (fun t =>
    Seg.str t :: Seg.str ":" :: (texts.map (fun _ => fmtcode alt)).flatten)

/-- Runtime formatting, as `println!` performs it: substitute the rendered
values into the holes in order.  An arity mismatch between holes and arguments
is a compile-time error for `println!`, modelled as `none`. -/
def formatRun : List Seg → List Value → Option String
  | [], [] => some ""
  | Seg.str t :: segs, vs => (formatRun segs vs).map (fun r => t ++ r)
  | Seg.hole alt :: segs, v :: vs =>
      (formatRun segs vs).map (fun r => (if alt then v.debugAlt else v.debug) ++ r)
  | Seg.hole _ :: _, [] => none
  | [], _ :: _ => none

/-- Left-to-right evaluation of the call arguments, once each, as the expanded
`println!(fmt, &a1, .., &an)` performs before formatting. -/
def evalArgs {σ : Type} : List (Expr σ) → σ → σ × List Value
  | [], s => (s, [])
  | e :: es, s =>
      let p := e.run s
      let q := evalArgs es p.1
      (q.1, p.2 :: q.2)

/-- The shape of one `trace!` call: the optional `#` (pretty) modifier, the
argument list, and whether a trailing comma follows the last argument. -/
structure CallShape (σ : Type) where
  pretty : Bool
  args : List (Expr σ)
  trailingComma : Bool

/-- Arms 5 and 6: `println!(trace!(@#fmt ..) / trace!(@fmt ..), $(&$IT),*)`.
The format string is built from the texts, the arguments are evaluated left to
right once each, and the rendered values fill the holes. -/
def generalArm {σ : Type} (alt : Bool) (es : List (Expr σ)) (s : σ) :
    Option (σ × String) :=
  match fmt alt (es.map Expr.text) with
  | none => none
  | some segs =>
      let p := evalArgs es s
      (formatRun segs p.2).map (fun out => (p.1, out))

/-- Arms 3 and 4: `println!("..:?..", $label)` / `println!("..Display..", $label)`:
the sole literal argument is evaluated and rendered with the Debug code `:?`
when the `#` modifier is present, with the Display code otherwise. -/
def labelArm {σ : Type} (pretty : Bool) (e : Expr σ) (s : σ) : σ × String :=
  let p := e.run s
  (p.1, if pretty then p.2.debug else p.2.display)

/-- The full `trace!` macro: dispatch over the call shape in arm order.
`none` models a shape rejected at expansion time. -/
def traceExpand {σ : Type} (file : String) (line : Nat) (c : CallShape σ)
    (s : σ) : Option (σ × String) :=
  match c.args with
  | [] =>
      if c.trailingComma then
        -- a bare comma skips arms 1-4 and reaches the general arm with zero
        -- `$IT`s, whose inner `@stringify` expansion then fails
        generalArm c.pretty [] s
      else
        -- arms 1 and 2: `()` and `(#)`
        some (s, atLine file line)
  | [e] =>
      if e.isLit && !c.trailingComma then
        -- arms 3 and 4: `(#$label:literal)` and `($label:literal)`; neither
        -- accepts a trailing comma
        some (labelArm c.pretty e s)
      else
        generalArm c.pretty c.args s
  | _ => generalArm c.pretty c.args s

/-- Whether the argument list alone would send a comma-free call to the label
arms: exactly one argument and it is a literal token. -/
def labelArmApplies {σ : Type} : List (Expr σ) → Bool
  | [e] => e.isLit
  | _ => false

/-- Spec-side description of joining: the pieces in order with `sep` between
consecutive pieces. -/
def joinSep (sep : String) : List String → String
  | [] => ""
  | [x] => x
  | x :: y :: xs => x ++ sep ++ joinSep sep (y :: xs)

/-- How a parameter hole renders a value: the Debug code `:?`, or the
alternate Debug code `:#?` when `alt` is set. -/
def renderHole (alt : Bool) (v : Value) : String :=
  if alt then v.debugAlt else v.debug

/-- A string-literal value: Display shows the text itself, both Debug codes
quote it. -/
def strLitVal (s : String) : Value :=
  ⟨s, "\"" ++ s ++ "\"", "\"" ++ s ++ "\""⟩

/-- A string-literal call argument (for literals without escape sequences):
`stringify!` keeps the surrounding quotes, evaluation is effect-free. -/
def strLitExpr (σ : Type) (s : String) : Expr σ :=
  ⟨"\"" ++ s ++ "\"", ArgKind.strLit, fun st => (st, strLitVal s)⟩

/-- The value of a small machine integer: Display, Debug `:?` and alternate
Debug `:#?` all print the decimal digits. -/
def natVal (n : Nat) : Value :=
  ⟨toString n, toString n, toString n⟩

/-- An effect-free variable-reference argument of integer value, such as the
`a`, `b`, `c` of the documented examples. -/
def natExpr (t : String) (n : Nat) : Expr Unit :=
  ⟨t, ArgKind.exprArg, fun st => (st, natVal n)⟩

/-- The sole argument of the call `trace!(0xED)` from `tests::literal`: a
non-string literal token whose Display rendering is `237`. -/
def hexLit : Expr Unit :=
  ⟨"0xED", ArgKind.otherLit, fun st => (st, natVal 237)⟩

/-- The argument `incr(&mut n)` of `tests::single_eval_per_arg`: each
evaluation increments the counter state by one and yields the unit value. -/
def incrExpr : Expr Nat :=
  ⟨"incr(&mut n)", ArgKind.exprArg, fun n => (n + 1, ⟨"()", "()", "()"⟩)⟩

/-- The rendered-value part of a general-shape line as `formatRun` assembles
it: for each value in order, a space then its Debug rendering. -/
def spaceJoin (alt : Bool) : List Value → String
  | [] => ""
  | v :: vs => " " ++ (renderHole alt v ++ spaceJoin alt vs)

/-- A variable-reference argument over a counter state whose evaluation also
bumps the counter; used to compare runs that start from different states. -/
def shiftExpr (t : String) (n : Nat) : Expr Nat :=
  ⟨t, ArgKind.exprArg, fun st => (st + 1, natVal n)⟩

/-- The hole part of a general-shape format string with `n` arguments: `n`
copies of `fmtcode`. -/
def holes (alt : Bool) : Nat → List Seg
  | 0 => []
  | n + 1 => Seg.str " " :: Seg.hole alt :: holes alt n

/-- The argument `zero` of the doc example `trace!(#zero)`: a `Coords` struct
whose Debug rendering is one line compact and indented multi-line in the
alternate mode.  `Coords` implements only Debug, so the Display field is
arbitrary; no arm reads it for a non-literal argument. -/
def zeroExpr : Expr Unit :=
  ⟨"zero", ArgKind.exprArg, fun st =>
    (st, ⟨"Coords \x7b x: 0.0, y: 0.0 \x7d",
          "Coords \x7b x: 0.0, y: 0.0 \x7d",
          "Coords \x7b\n    x: 0.0,\n    y: 0.0,\n\x7d"⟩)⟩

theorem str_append_assoc (a b c : String) : a ++ b ++ c = a ++ (b ++ c) := by
  apply String.ext
  simp [String.data_append]

theorem quote_ne (s : String) : s ≠ "\"" ++ s ++ "\"" := by
  intro h
  have h2 := congrArg String.length h
  rw [String.length_append, String.length_append] at h2
  have h3 : ("\"" : String).length = 1 := rfl
  omega

theorem stringifyTail_joinSep : ∀ (t : String) (ts : List String),
    t ++ stringifyTail ts = joinSep ", " (t :: ts) := by
  intro t ts
  induction ts generalizing t with
  | nil => simp [stringifyTail, joinSep, String.append_empty]
  | cons u us ih =>
      simp only [stringifyTail, joinSep]
      rw [← ih u, str_append_assoc]

theorem spaceJoin_joinSep (alt : Bool) : ∀ (v : Value) (vs : List Value),
    spaceJoin alt (v :: vs) = " " ++ joinSep " " ((v :: vs).map (renderHole alt)) := by
  intro v vs
  induction vs generalizing v with
  | nil => simp [spaceJoin, joinSep, String.append_empty]
  | cons w ws ih =>
      show " " ++ (renderHole alt v ++ spaceJoin alt (w :: ws)) = _
      rw [ih w]
      simp only [List.map_cons, joinSep]
      simp only [str_append_assoc]

theorem colon_spaceJoin (alt : Bool) (v : Value) (vs : List Value) :
    ":" ++ spaceJoin alt (v :: vs) =
      ": " ++ joinSep " " ((v :: vs).map (renderHole alt)) := by
  rw [spaceJoin_joinSep, ← str_append_assoc]
  rfl

theorem evalArgs_length {σ : Type} : ∀ (es : List (Expr σ)) (s : σ),
    ((evalArgs es s).2).length = es.length := by
  intro es
  induction es with
  | nil => intro s; rfl
  | cons e es ih => intro s; simp [evalArgs, ih]

theorem fmtcodes_flatten_holes (alt : Bool) : ∀ (ts : List String),
    (ts.map (fun _ => fmtcode alt)).flatten = holes alt ts.length := by
  intro ts
  induction ts with
  | nil => rfl
  | cons t ts ih =>
      simp only [List.map_cons, List.flatten_cons, fmtcode, List.cons_append,
        List.nil_append, List.length_cons, holes]
      simpa [fmtcode] using ih

theorem formatRun_holes (alt : Bool) : ∀ (vs : List Value),
    formatRun (holes alt vs.length) vs = some (spaceJoin alt vs) := by
  intro vs
  induction vs with
  | nil => rfl
  | cons v vs ih =>
      simp only [List.length_cons, holes]
      simp [formatRun, ih, spaceJoin, renderHole]

theorem generalArm_eq {σ : Type} (alt : Bool) (e : Expr σ) (es : List (Expr σ)) (s : σ) :
    generalArm alt (e :: es) s =
      some ((evalArgs (e :: es) s).1,
        joinSep ", " ((e :: es).map Expr.text) ++ ": " ++
          joinSep " " (((evalArgs (e :: es) s).2).map (renderHole alt))) := by
  have hstr : stringifyArm ((e :: es).map Expr.text) =
      some (joinSep ", " ((e :: es).map Expr.text)) := by
    simp [stringifyArm, stringifyTail_joinSep]
  have hfmt : fmt alt ((e :: es).map Expr.text) =
      some (Seg.str (joinSep ", " ((e :: es).map Expr.text)) :: Seg.str ":" ::
        holes alt (((e :: es).map Expr.text).length) ) := by
    rw [fmt, hstr, fmtcodes_flatten_holes]
    rfl
  have hlen : (((e :: es).map Expr.text).length = ((evalArgs (e :: es) s).2).length) := by
    rw [evalArgs_length]
    simp
  have hvs : (evalArgs (e :: es) s).2 =
      (e.run s).2 :: (evalArgs es ((e.run s).1)).2 := by
    simp [evalArgs]
  simp only [generalArm, hfmt]
  rw [formatRun, formatRun, hlen, formatRun_holes]
  simp only [Option.map_some']
  rw [hvs, colon_spaceJoin, ← str_append_assoc, ← hvs]

theorem evalArgs_fst {σ : Type} : ∀ (es : List (Expr σ)) (s : σ),
    (evalArgs es s).1 = es.foldl (fun st e => (e.run st).1) s := by
  intro es
  induction es with
  | nil => intro s; rfl
  | cons e es ih => intro s; simp [evalArgs, List.foldl, ih]

theorem renderHole_false : renderHole false = Value.debug := by
  funext v
  rfl

theorem renderHole_true : renderHole true = Value.debugAlt := by
  funext v
  rfl

theorem traceExpand_general {σ : Type} (f : String) (l : Nat) (p tc : Bool)
    (e : Expr σ) (es : List (Expr σ)) (s : σ)
    (h : labelArmApplies (e :: es) = false ∨ tc = true) :
    traceExpand f l ⟨p, e :: es, tc⟩ s = generalArm p (e :: es) s := by
  cases es with
  | nil =>
      cases htc : tc with
      | true => simp [traceExpand]
      | false =>
          have hlit : e.isLit = false := by
            rcases h with h | h
            · simpa [labelArmApplies] using h
            · rw [htc] at h
              cases h
          simp [traceExpand, hlit]
  | cons e2 es2 => simp [traceExpand]

/-- Claim C1: for every call in the general shape (one or more arguments, not
the label shorthand, compact mode) the assembled line is the argument source
texts in order joined by comma-space, then a single colon-space, then the
compact Debug renderings of the values in the same order joined by single
spaces. -/
theorem c1_general_compact_line {σ : Type} (f : String) (l : Nat)
    (es : List (Expr σ)) (s : σ) (h1 : es ≠ [])
    (h2 : labelArmApplies es = false) :
    traceExpand f l ⟨false, es, false⟩ s =
      some ((evalArgs es s).1,
        joinSep ", " (es.map Expr.text) ++ ": " ++
          joinSep " " (((evalArgs es s).2).map Value.debug)) := by
  cases es with
  | nil => exact absurd rfl h1
  | cons e es =>
      rw [traceExpand_general f l false false e es s (Or.inl h2), generalArm_eq,
        renderHole_false]

/-- Claim C1 witness: `trace!(a, b, c)` with `a = 3`, `b = 4`, `c = 5` prints
exactly `a, b, c: 3 4 5`. -/
theorem c1_witness :
    traceExpand "src/eztrace.rs" 36
      ⟨false, [natExpr "a" 3, natExpr "b" 4, natExpr "c" 5], false⟩ () =
      some ((), "a, b, c: 3 4 5") := by
  have h := c1_general_compact_line "src/eztrace.rs" 36
    [natExpr "a" 3, natExpr "b" 4, natExpr "c" 5] ()
    (List.cons_ne_nil _ _) rfl
  rw [h]
  rfl

/-- Claim C2: every argument expression of a call is evaluated exactly once
per occurrence in the argument list, in left-to-right order, before any
rendering happens: the state after the call is exactly the left fold of the
argument effects over the initial state, for every state type and argument
list. -/
theorem c2_single_eval_left_to_right {σ : Type} (f : String) (l : Nat)
    (c : CallShape σ) (s : σ) (h : c.args ≠ []) :
    ∃ out, traceExpand f l c s =
      some (c.args.foldl (fun st e => (e.run st).1) s, out) := by
  obtain ⟨p, args, tc⟩ := c
  cases args with
  | nil => exact absurd rfl h
  | cons e es =>
      have hfold : (evalArgs (e :: es) s).1 =
          (e :: es).foldl (fun st e => (e.run st).1) s := evalArgs_fst _ _
      cases es with
      | nil =>
          by_cases hl : (e.isLit && !tc) = true
          · refine ⟨if p then ((e.run s).2).debug else ((e.run s).2).display, ?_⟩
            simp [traceExpand, hl, labelArm, List.foldl]
          · have hgen := traceExpand_general f l p tc e [] s (by
              cases hb : e.isLit with
              | false => exact Or.inl (by simp [labelArmApplies, hb])
              | true =>
                  cases htc : tc with
                  | true => exact Or.inr rfl
                  | false => exact absurd (by simp [hb, htc]) hl)
            rw [generalArm_eq, hfold] at hgen
            exact ⟨_, hgen⟩
      | cons e2 es2 =>
          have hgen := traceExpand_general f l p tc e (e2 :: es2) s (Or.inl rfl)
          rw [generalArm_eq, hfold] at hgen
          exact ⟨_, hgen⟩

/-- Claim C2 witness: the side-effecting argument `incr(&mut n)` repeated
three times in one call increments the counter exactly three times. -/
theorem c2_witness :
    ∃ out, traceExpand "src/eztrace.rs" 156
      ⟨false, [incrExpr, incrExpr, incrExpr], false⟩ 0 = some (3, out) := by
  have h := c2_single_eval_left_to_right "src/eztrace.rs" 156
    ⟨false, [incrExpr, incrExpr, incrExpr], false⟩ 0 (List.cons_ne_nil _ _)
  exact h

/-- Claim C3: a call with zero arguments prints exactly `file:line` for the
call site's own location, and the zero-argument form with the pretty modifier
prints the same line with no other effect. -/
theorem c3_zero_args_line {σ : Type} (f : String) (l : Nat) (s : σ) :
    traceExpand f l ⟨false, [], false⟩ s = some (s, f ++ ":" ++ toString l) ∧
    traceExpand f l ⟨true, [], false⟩ s = some (s, f ++ ":" ++ toString l) := by
  exact ⟨rfl, rfl⟩

/-- Claim C4 counterexample: `trace!(0xED)` (from `tests::literal`) has one
argument that is a literal but not a string literal, yet it is not formatted
via the general `text: value` shape: the `$label:literal` arm matches any
literal token, so the call prints `237`, not `0xED: 237`. -/
theorem c4_counterexample :
    traceExpand "src/eztrace.rs" 180 ⟨false, [hexLit], false⟩ () =
        some ((), "237") ∧
    some (((), "237") : Unit × String) ≠ some ((), "0xED: 237") := by
  refine ⟨rfl, ?_⟩
  decide

/-- Claim C4 amended: the label shorthand applies exactly when the call has
one argument that is a literal token of any kind (string or not) and no
trailing comma; such a call prints the literal's Display rendering, while a
single-argument call whose argument is not a literal token is formatted via
the general `text: value` shape. -/
theorem c4_amended_label_any_literal {σ : Type} (f : String) (l : Nat)
    (e : Expr σ) (s : σ) :
    (e.isLit = true →
      traceExpand f l ⟨false, [e], false⟩ s =
        some ((e.run s).1, ((e.run s).2).display)) ∧
    (e.isLit = false →
      traceExpand f l ⟨false, [e], false⟩ s =
        some ((e.run s).1, e.text ++ ": " ++ ((e.run s).2).debug)) := by
  constructor
  · intro hl
    simp [traceExpand, hl, labelArm]
  · intro hl
    have hgen := traceExpand_general f l false false e [] s
      (Or.inl (by simp [labelArmApplies, hl]))
    rw [generalArm_eq, renderHole_false] at hgen
    simpa [evalArgs, joinSep] using hgen

/-- Claim C4 amended witness: `trace!(0xED)` prints `237` via the label arm,
and `trace!(x)` with `x = 3` prints `x: 3` via the general shape. -/
theorem c4_amended_witness :
    traceExpand "src/eztrace.rs" 180 ⟨false, [hexLit], false⟩ () =
        some ((), "237") ∧
    traceExpand "src/eztrace.rs" 88 ⟨false, [natExpr "x" 3], false⟩ () =
        some ((), "x: 3") := by
  constructor
  · exact (c4_amended_label_any_literal "src/eztrace.rs" 180 hexLit ()).1 rfl
  · have h := (c4_amended_label_any_literal "src/eztrace.rs" 88
      (natExpr "x" 3) ()).2 rfl
    exact h

/-- Claim C5: a call whose sole argument is a string literal prints the label
text itself, unquoted; the same call with the pretty modifier prints the
quoted Debug rendering of the literal, which differs from the unmodified
label line. -/
theorem c5_string_label {σ : Type} (f : String) (l : Nat) (st : σ)
    (s : String) :
    traceExpand f l ⟨false, [strLitExpr σ s], false⟩ st = some (st, s) ∧
    traceExpand f l ⟨true, [strLitExpr σ s], false⟩ st =
      some (st, "\"" ++ s ++ "\"") ∧
    s ≠ "\"" ++ s ++ "\"" := by
  exact ⟨rfl, rfl, quote_ne s⟩

/-- Claim C6 counterexample: neither of the two shapes the claim names is
rejected.  `trace!(#)` (zero arguments with the pretty modifier, doc example)
is accepted and prints the call site location, and `trace!("hello", "world!")`
(a label-style literal combined with further arguments, from `tests::multi`)
is accepted and formatted via the general shape — both produce an output
line rather than a static rejection. -/
theorem c6_counterexample :
    traceExpand "src/eztrace.rs" 205 ⟨true, ([] : List (Expr Unit)), false⟩ () =
        some ((), "src/eztrace.rs:205") ∧
    traceExpand "src/eztrace.rs" 185
        ⟨false, [strLitExpr Unit "hello", strLitExpr Unit "world!"], false⟩ () =
        some ((), "\"hello\", \"world!\": \"hello\" \"world!\"") := by
  exact ⟨rfl, rfl⟩

/-- Claim C6 amended: a call with zero arguments and the pretty modifier is
accepted and prints `file:line`, and a call listing several literal arguments
is accepted and formatted via the general shape; neither is a runtime
failure.  The shape that is rejected at expansion time is a bare trailing
comma with no arguments, whose inner `@stringify` has no matching arm. -/
theorem c6_amended_shapes_accepted {σ : Type} (f : String) (l : Nat)
    (p : Bool) (s : σ) (a b : String) :
    traceExpand f l ⟨true, ([] : List (Expr σ)), false⟩ s =
        some (s, atLine f l) ∧
    traceExpand f l ⟨p, [strLitExpr σ a, strLitExpr σ b], false⟩ s =
        some (s, joinSep ", " ["\"" ++ a ++ "\"", "\"" ++ b ++ "\""] ++ ": " ++
          joinSep " " ["\"" ++ a ++ "\"", "\"" ++ b ++ "\""]) ∧
    traceExpand f l ⟨p, ([] : List (Expr σ)), true⟩ s = none := by
  refine ⟨rfl, ?_, rfl⟩
  have h := traceExpand_general f l p false (strLitExpr σ a) [strLitExpr σ b] s
    (Or.inl rfl)
  rw [generalArm_eq] at h
  simpa [evalArgs, strLitExpr, strLitVal, renderHole] using h

/-- Claim C7: in the general shape the text segment of the line is exactly the
verbatim captured source texts of the arguments, in order, joined by
comma-space — assembled from the call syntax alone, independent of the
evaluated values. -/
theorem c7_text_segment_verbatim {σ : Type} (f : String) (l : Nat)
    (p tc : Bool) (es : List (Expr σ)) (s : σ) (h1 : es ≠ [])
    (h2 : labelArmApplies es = false) :
    ∃ valueSeg, traceExpand f l ⟨p, es, tc⟩ s =
      some ((evalArgs es s).1,
        joinSep ", " (es.map Expr.text) ++ ": " ++ valueSeg) := by
  cases es with
  | nil => exact absurd rfl h1
  | cons e t =>
      have h := traceExpand_general f l p tc e t s (Or.inl h2)
      rw [generalArm_eq] at h
      exact ⟨_, h⟩

/-- Claim C7 witness: `trace!(a * a + b * b, c * c)` yields the text segment
`a * a + b * b, c * c` exactly as typed. -/
theorem c7_witness :
    ∃ valueSeg, traceExpand "src/eztrace.rs" 38
      ⟨false, [natExpr "a * a + b * b" 25, natExpr "c * c" 25], false⟩ () =
      some ((), "a * a + b * b, c * c" ++ ": " ++ valueSeg) := by
  have h := c7_text_segment_verbatim "src/eztrace.rs" 38 false false
    [natExpr "a * a + b * b" 25, natExpr "c * c" 25] ()
    (List.cons_ne_nil _ _) rfl
  exact h

/-- Claim C8: for a general-shape call the mode changes only the value
renderings: for either mode the line is the same text segment, the same
separators, and the values each rendered by the single mode-selected
renderer, applied uniformly. -/
theorem c8_pretty_changes_only_values {σ : Type} (f : String) (l : Nat)
    (tc : Bool) (es : List (Expr σ)) (s : σ) (h1 : es ≠ [])
    (h2 : labelArmApplies es = false) :
    ∀ p : Bool, traceExpand f l ⟨p, es, tc⟩ s =
      some ((evalArgs es s).1,
        joinSep ", " (es.map Expr.text) ++ ": " ++
          joinSep " " (((evalArgs es s).2).map (renderHole p))) := by
  intro p
  cases es with
  | nil => exact absurd rfl h1
  | cons e t =>
      rw [traceExpand_general f l p tc e t s (Or.inl h2), generalArm_eq]

/-- Claim C8 witness: `trace!(zero)` and `trace!(#zero)` on the doc example
struct share the text segment and separators and differ only in the Debug
rendering of the value. -/
theorem c8_witness :
    traceExpand "src/eztrace.rs" 73 ⟨false, [zeroExpr], false⟩ () =
        some ((), "zero: Coords \x7b x: 0.0, y: 0.0 \x7d") ∧
    traceExpand "src/eztrace.rs" 73 ⟨true, [zeroExpr], false⟩ () =
        some ((), "zero: Coords \x7b\n    x: 0.0,\n    y: 0.0,\n\x7d") := by
  have h := c8_pretty_changes_only_values "src/eztrace.rs" 73 false [zeroExpr]
    () (List.cons_ne_nil _ _) rfl
  constructor
  · rw [h false]
    rfl
  · rw [h true]
    rfl

/-- Claim C9 counterexample: `trace!("hi",)` is in the general shape (the
literal arm accepts no trailing comma) and prints `"hi": "hi"`, while the
identical call without the trailing comma, `trace!("hi")`, dispatches to the
label shorthand and prints `hi` — different lines. -/
theorem c9_counterexample :
    traceExpand "src/eztrace.rs" 179 ⟨false, [strLitExpr Unit "hi"], true⟩ () =
        some ((), "\"hi\": \"hi\"") ∧
    traceExpand "src/eztrace.rs" 179 ⟨false, [strLitExpr Unit "hi"], false⟩ () =
        some ((), "hi") ∧
    (("\"hi\": \"hi\"" : String) ≠ "hi") := by
  refine ⟨rfl, rfl, by decide⟩

/-- Claim C9 amended: a trailing comma never changes the output provided the
comma-free call also dispatches to the general shape, i.e. the call has at
least two arguments or its sole argument is not a literal token; a
single-literal call with a trailing comma instead moves from the label
shorthand to the general shape. -/
theorem c9_amended_trailing_comma {σ : Type} (f : String) (l : Nat) (p : Bool)
    (es : List (Expr σ)) (s : σ) (h1 : es ≠ [])
    (h2 : labelArmApplies es = false) :
    traceExpand f l ⟨p, es, true⟩ s = traceExpand f l ⟨p, es, false⟩ s := by
  cases es with
  | nil => exact absurd rfl h1
  | cons e t =>
      rw [traceExpand_general f l p true e t s (Or.inr rfl),
        traceExpand_general f l p false e t s (Or.inl h2)]

/-- Claim C9 witness: `trace!(a, b,)` prints the same line as
`trace!(a, b)`. -/
theorem c9_witness :
    traceExpand "src/eztrace.rs" 143
        ⟨false, [natExpr "a" 3, natExpr "b" 4], true⟩ () =
      traceExpand "src/eztrace.rs" 143
        ⟨false, [natExpr "a" 3, natExpr "b" 4], false⟩ () := by
  exact c9_amended_trailing_comma "src/eztrace.rs" 143 false
    [natExpr "a" 3, natExpr "b" 4] () (List.cons_ne_nil _ _) rfl

/-- Claim C10: the engine is deterministic and stateless: two calls of the
same static shape (same pretty flag, trailing comma, argument texts and
argument token kinds) whose arguments evaluate to the same rendered values
produce the same output line, whatever the state type, the starting state or
the argument effects. -/
theorem c10_deterministic {σ₁ σ₂ : Type} (f : String) (l : Nat) (p tc : Bool)
    (es₁ : List (Expr σ₁)) (es₂ : List (Expr σ₂)) (s₁ : σ₁) (s₂ : σ₂)
    (htext : es₁.map Expr.text = es₂.map Expr.text)
    (hkind : es₁.map Expr.kind = es₂.map Expr.kind)
    (hvals : (evalArgs es₁ s₁).2 = (evalArgs es₂ s₂).2) :
    (traceExpand f l ⟨p, es₁, tc⟩ s₁).map Prod.snd =
      (traceExpand f l ⟨p, es₂, tc⟩ s₂).map Prod.snd := by
  cases es₁ with
  | nil =>
      cases es₂ with
      | nil => cases tc <;> rfl
      | cons e₂ t₂ => simp at htext
  | cons e₁ t₁ =>
      cases es₂ with
      | nil => simp at htext
      | cons e₂ t₂ =>
          cases t₁ with
          | nil =>
              cases t₂ with
              | cons x xs => simp at htext
              | nil =>
                  have hk : e₁.kind = e₂.kind := by simpa using hkind
                  have hlit : e₁.isLit = e₂.isLit := by
                    simp [Expr.isLit, hk]
                  have hv : (e₁.run s₁).2 = (e₂.run s₂).2 := by
                    simpa [evalArgs] using hvals
                  have ht : e₁.text = e₂.text := by simpa using htext
                  by_cases hl : (e₂.isLit && !tc) = true
                  · simp [traceExpand, hl, hlit, labelArm, hv]
                  · have hside₂ : labelArmApplies [e₂] = false ∨ tc = true := by
                      cases hb : e₂.isLit with
                      | false => exact Or.inl (by simp [labelArmApplies, hb])
                      | true =>
                          cases htc : tc with
                          | true => exact Or.inr rfl
                          | false => exact absurd (by simp [hb, htc]) hl
                    have hside₁ : labelArmApplies [e₁] = false ∨ tc = true := by
                      rcases hside₂ with hb | hb
                      · exact Or.inl (by
                          simp only [labelArmApplies] at hb ⊢
                          rw [hlit]
                          exact hb)
                      · exact Or.inr hb
                    have h₁ := traceExpand_general f l p tc e₁ [] s₁ hside₁
                    have h₂ := traceExpand_general f l p tc e₂ [] s₂ hside₂
                    rw [generalArm_eq] at h₁ h₂
                    rw [h₁, h₂]
                    simp [evalArgs, ht, hv]
          | cons y ys =>
              cases t₂ with
              | nil => simp at htext
              | cons z zs =>
                  have h₁ := traceExpand_general f l p tc e₁ (y :: ys) s₁
                    (Or.inl rfl)
                  have h₂ := traceExpand_general f l p tc e₂ (z :: zs) s₂
                    (Or.inl rfl)
                  rw [generalArm_eq] at h₁ h₂
                  rw [h₁, h₂]
                  simp only [Option.map_some']
                  rw [htext, hvals]

/-- Claim C10 witness: two calls with the same shape, texts and rendered
values — one effect-free over the unit state, one bumping a counter started
at ten — print the same line. -/
theorem c10_witness :
    (traceExpand "src/eztrace.rs" 80 ⟨false, [natExpr "a" 3], false⟩ ()).map
        Prod.snd =
      (traceExpand "src/eztrace.rs" 80 ⟨false, [shiftExpr "a" 3], false⟩ 10).map
        Prod.snd := by
  exact c10_deterministic "src/eztrace.rs" 80 false false [natExpr "a" 3]
    [shiftExpr "a" 3] () 10 rfl rfl rfl

end Eztrace
